import Mathlib

/-
  Shallow embedding of the minipool HTTP gateway (src/main.rs, src/metrics.rs).

  The gateway translates REST requests into blocking RPC calls against a
  bitcoind daemon.  Each handler is embedded as a pure function of the
  daemon's reply: the reply of the remote call (an `Except RpcError _`)
  and the outcome of the `tokio::task::spawn_blocking` offload (a
  `TaskResult _`) are explicit inputs, so the handler definitions mirror the
  `match` expressions of the source line by line.
-/

deriving instance DecidableEq for Except

namespace Minipool

/-- Error of a `bitcoincore_rpc` call.  The source never inspects the error
value (every `Ok(Err(e))` arm ignores `e` except for logging), but the
constructors record the distinction the spec draws between the daemon
reporting "not found" and any other RPC failure. -/
inductive RpcError where
  | notFound
  | other (msg : String)
deriving DecidableEq, Repr

/-- Outcome of `tokio::task::spawn_blocking(...).await`: either the closure
ran to completion and returned `val`, or the spawned task itself failed
(`Err(JoinError)` — panic or cancellation). -/
inductive TaskResult (α : Type) where
  | joined (val : α)
  | joinError (msg : String)
deriving DecidableEq

/-- Body of an HTTP response: plain text, or the JSON serialization of a
`BTreeMap<String, f64>` (kept as its ordered entry list). -/
inductive Body where
  | text (s : String)
  | json (entries : List (String × ℚ))
deriving DecidableEq

/-- An HTTP response as produced by the handlers: status code, body, and the
`Location` header (set only by `Redirect`). -/
structure Response where
  status : Nat
  body : Body
  location : Option String
deriving DecidableEq

/-! ### `get_tip_height` (main.rs 136–149) -/

/-- Embeds `get_tip_height`: the match on
`spawn_blocking(move || rpc.get_block_count()).await`. -/
def get_tip_height (result : TaskResult (Except RpcError Nat)) : Response :=
  match result with
  | .joined (.ok height) => ⟨200, .text (toString height), none⟩
  | .joined (.error _) => ⟨500, .text "RPC error", none⟩
  | .joinError _ => ⟨500, .text "RPC error", none⟩

/-! ### `get_block_by_height` (main.rs 151–170) -/

/-- A parsed `bitcoincore_rpc::bitcoin::BlockHash`, kept as its canonical
(lower-case, 64-hex-digit) display string. -/
structure BlockHash where
  hex : String
deriving DecidableEq

/-- Embeds `get_block_by_height` for a height that the router extracted as a
`u64`.  Note the source maps EVERY `Ok(Err(e))` — any RPC error, not only
not-found — to 404 "Block not found"; 500 arises only from the
`Err(JoinError)` arm. -/
def get_block_by_height (height : Nat)
    (result : TaskResult (Except RpcError BlockHash)) : Response :=
  match height, result with
  | _, .joined (.ok hash) => ⟨200, .text hash.hex, none⟩
  | _, .joined (.error _) => ⟨404, .text "Block not found", none⟩
  | _, .joinError _ => ⟨500, .text "RPC error", none⟩

/-! ### `get_block_raw` (main.rs 208–235) -/

def isHexDigit (c : Char) : Bool :=
  (Char.ofNat 48 ≤ c && c ≤ Char.ofNat 57) ||
  (Char.ofNat 97 ≤ c && c ≤ Char.ofNat 102) ||
  (Char.ofNat 65 ≤ c && c ≤ Char.ofNat 70)

/-- Embeds `BlockHash::from_str`: it succeeds exactly on 64-character
hexadecimal strings (case-insensitive), and the parsed hash displays as the
lower-cased input. -/
def BlockHash.fromStr (s : String) : Option BlockHash :=
  if s.length == 64 && s.data.all isHexDigit then
    some ⟨⟨s.data.map Char.toLower⟩⟩
  else
    none

/-- Embeds `get_block_raw`.  The first component is the HTTP response; the
second records the RPC request issued to the daemon (`none` when the handler
returned before any RPC call was attempted).  As in `get_block_by_height`,
every `Ok(Err(e))` maps to 404 and only a join failure maps to 500. -/
def get_block_raw (hashStr : String)
    (rpc : BlockHash → TaskResult (Except RpcError String)) :
    Response × Option BlockHash :=
  match BlockHash.fromStr hashStr with
  | some blockHash =>
    (match rpc blockHash with
      | .joined (.ok blockHex) => ⟨200, .text blockHex, none⟩
      | .joined (.error _) => ⟨404, .text "Block not found", none⟩
      | .joinError _ => ⟨500, .text "RPC error", none⟩,
     some blockHash)
  | none => (⟨400, .text "Invalid block hash", none⟩, none)

/-! ### Fee estimation (main.rs 29–32, 172–206) -/

/-- `CONFIRMATION_TARGETS` (main.rs 29–32). -/
def CONFIRMATION_TARGETS : List Nat :=
  [1, 2, 3, 4, 5, 6, 7, 8, 9, 10, 11, 12, 13, 14, 15, 16, 17, 18, 19, 20,
   21, 22, 23, 24, 25, 144, 504, 1008]

/-- `Amount::to_btc`: an `Amount` is an unsigned count of satoshis; in BTC it
is that count divided by 10^8. -/
def amountToBtc (sats : Nat) : ℚ := (sats : ℚ) / 100000000

/-- The fallback constant `0.0001` substituted when `estimate_smart_fee`
succeeds but carries no `fee_rate`. -/
def FALLBACK_FEE_RATE : ℚ := 1 / 10000

/-- Embeds `get_fee_rate_blocking` (main.rs 172–184) as a function of the
daemon's `estimate_smart_fee` reply.  The reply is modelled by its
`fee_rate: Option<Amount>` field (an optional satoshi count), wrapped in the
RPC call's own `Result`.  The `?` propagates the RPC error; a missing
`fee_rate` becomes the fixed fallback, never an error. -/
def get_fee_rate_blocking (estimateSmartFee : Except RpcError (Option Nat)) :
    Except RpcError ℚ :=
  match estimateSmartFee with
  | .error e => .error e
  | .ok (some feeRate) => .ok (amountToBtc feeRate)
  | .ok none => .ok FALLBACK_FEE_RATE

/-- Strict lexicographic order on character lists, comparing code points;
on UTF-8 strings this agrees with Rust's byte-wise `Ord` for `String`, the
order of `BTreeMap<String, _>`. -/
def charsLt : List Char → List Char → Bool
  | [], [] => false
  | [], _ :: _ => true
  | _ :: _, [] => false
  | a :: as, b :: bs =>
    if a < b then true
    else if b < a then false
    else charsLt as bs

/-- Rust's `String` ordering. -/
def strLt (a b : String) : Bool := charsLt a.data b.data

/-- Insertion into a `BTreeMap<String, f64>` viewed as its ordered entry
list: keys kept strictly increasing in Rust's `String` order; an equal key
replaces the stored value. -/
def insertSorted (k : String) (v : ℚ) :
    List (String × ℚ) → List (String × ℚ)
  | [] => [(k, v)]
  | (k', v') :: rest =>
    if strLt k k' then (k, v) :: (k', v') :: rest
    else if k == k' then (k, v) :: rest
    else (k', v') :: insertSorted k v rest

/-- The closure inside `get_fee_estimates`:
`CONFIRMATION_TARGETS.iter().map(|&blocks| Ok((blocks.to_string(), get_fee_rate_blocking(&rpc, blocks)?))).collect::<Result<BTreeMap<_,_>, _>>()`.
`collect` over `Result` short-circuits at the first error; on success every
pair is inserted into the `BTreeMap` in iteration order.  `est blocks` is the
daemon's `estimate_smart_fee` reply for the given target. -/
def collectFees (est : Nat → Except RpcError (Option Nat)) :
    List Nat → List (String × ℚ) → Except RpcError (List (String × ℚ))
  | [], acc => .ok acc
  | blocks :: rest, acc =>
    match get_fee_rate_blocking (est blocks) with
    | .error e => .error e
    | .ok rate => collectFees est rest (insertSorted (toString blocks) rate acc)

/-- The full aggregate run by the spawned closure. -/
def feeEstimatesMap (est : Nat → Except RpcError (Option Nat)) :
    Except RpcError (List (String × ℚ)) :=
  collectFees est CONFIRMATION_TARGETS []

/-- Embeds `get_fee_estimates` (main.rs 186–206).  `task` is the outcome of
the `spawn_blocking` offload itself: when it joins, the closure's value is
`feeEstimatesMap est`; a join failure is the outer `Err(e)` arm. -/
def get_fee_estimates (est : Nat → Except RpcError (Option Nat))
    (task : TaskResult Unit) : Response :=
  match task with
  | .joined _ =>
    match feeEstimatesMap est with
    | .ok estimates => ⟨200, .json estimates, none⟩
    | .error _ => ⟨500, .text "RPC error", none⟩
  | .joinError _ => ⟨500, .text "RPC error", none⟩

/-! ### Route table, fallback and metrics middleware
(main.rs 82–134, 237–256, 308–310; metrics.rs 34–58) -/

/-- A `RouteInfo` (main.rs 237–242).  The `handler: MethodRouter` field is
represented by the dispatch argument of `serveMainServer` below, since a
shallow embedding keeps handlers as functions, not data. -/
structure RouteInfo where
  path : String
  description : String
deriving DecidableEq

/-- The `routes` vec built in `start_main_server` (main.rs 88–109). -/
def routes : List RouteInfo :=
  [⟨"/api/blocks/tip/height", "Get the current blockchain tip height."⟩,
   ⟨"/api/block-height/{height}", "Get the block hash for a specific height."⟩,
   ⟨"/api/fee-estimates", "Get fee estimates for different confirmation targets."⟩,
   ⟨"/api/block/{hash}/raw", "Get the raw block data for a specific block hash."⟩]

/-- Split a character list at `/` (axum's path segmentation). -/
def splitSlash : List Char → List (List Char)
  | [] => [[]]
  | c :: rest =>
    if c = Char.ofNat 47 then [] :: splitSlash rest
    else
      match splitSlash rest with
      | [] => [[c]]
      | seg :: segs => (c :: seg) :: segs

/-- A template segment of the form `\x7bname\x7d` captures a path parameter. -/
def isParamSeg (seg : List Char) : Bool :=
  match seg with
  | c :: rest =>
    c == Char.ofNat 123 && rest.getLast? == some (Char.ofNat 125)
  | [] => false

/-- One template segment against one concrete path segment: a parameter
segment captures any non-empty segment, a literal must match exactly. -/
def segMatches (tseg pseg : List Char) : Bool :=
  if isParamSeg tseg then !pseg.isEmpty else tseg == pseg

/-- Whether a concrete request path resolves against a route template
(axum's router: same number of `/`-segments, segment-wise match). -/
def pathMatches (template path : String) : Bool :=
  let ts := splitSlash template.data
  let ps := splitSlash path.data
  ts.length == ps.length && (ts.zip ps).all fun tp => segMatches tp.1 tp.2

/-- Every template registered on the main router: `/` (main.rs 116) plus the
four `routes` entries (main.rs 119–121). -/
def routeTemplates : List String :=
  "/" :: routes.map RouteInfo.path

/-- The route template a request path resolves to, if any (this is the
`MatchedPath` extension axum inserts on a match). -/
def matchRoute (path : String) : Option String :=
  routeTemplates.find? fun t => pathMatches t path

/-- The label tuple recorded by the middleware (metrics.rs 48–52). -/
structure MetricLabels where
  method : String
  path : String
  status : String
deriving DecidableEq

/-- What one pass of the middleware records: the
`counter!("http_requests_total", ..).increment(1)` calls and the
`histogram!("http_requests_duration_seconds", ..).record(..)` calls. -/
structure MetricsRecord where
  counterIncrements : List MetricLabels
  histogramObservations : List MetricLabels
deriving DecidableEq

/-- Embeds `track_metrics` (metrics.rs 34–58): label path is the
`MatchedPath` extension when present, otherwise the raw request path; one
counter increment and one histogram observation, both with the same labels. -/
def track_metrics (method : String) (matchedPath : Option String)
    (rawPath : String) (response : Response) : MetricsRecord :=
  let path :=
    match matchedPath with
    | some mp => mp
    | none => rawPath
  let labels : MetricLabels := ⟨method, path, toString response.status⟩
  ⟨[labels], [labels]⟩

/-- `fallback` (main.rs 308–310): `Redirect::temporary("/")`, i.e. status
307 with `Location: /` and an empty body. -/
def fallback : Response := ⟨307, .text "", some "/"⟩

/-- One request through the main router (main.rs 116–127).  `track_metrics`
is installed with `route_layer(middleware::from_fn(track_metrics))`; in axum,
`route_layer` applies the middleware only to requests that match a
registered route, NOT to the fallback — so an unmatched request is answered
by `fallback` with no metrics recorded.  The handler of the matched route is
abstracted as a function of the matched template, covering every handler
outcome. -/
def serveMainServer (method rawPath : String)
    (handler : String → Response) : Response × MetricsRecord :=
  match matchRoute rawPath with
  | some tmpl =>
    (handler tmpl, track_metrics method (some tmpl) rawPath (handler tmpl))
  | none => (fallback, ⟨[], []⟩)

/-! ### Helper lemmas about the fee-estimate aggregate -/

/-- The action of `insertSorted` on keys alone. -/
def keyInsert (k : String) : List String → List String
  | [] => [k]
  | k' :: rest =>
    if strLt k k' then k :: k' :: rest
    else if k == k' then k :: rest
    else k' :: keyInsert k rest

/-- The key list produced by folding `insertSorted` over a target list. -/
def keyCollect : List Nat → List String → List String
  | [], ks => ks
  | blocks :: rest, ks => keyCollect rest (keyInsert (toString blocks) ks)

lemma insertSorted_map_fst (k : String) (v : ℚ) (m : List (String × ℚ)) :
    (insertSorted k v m).map Prod.fst = keyInsert k (m.map Prod.fst) := by
  induction m with
  | nil => rfl
  | cons p rest ih =>
    obtain ⟨k', v'⟩ := p
    by_cases h1 : strLt k k' = true
    · simp [insertSorted, keyInsert, h1]
    · by_cases h2 : (k == k') = true
      · simp [insertSorted, keyInsert, h1, h2]
      · simp [insertSorted, keyInsert, h1, h2, ih]

lemma collectFees_map_fst (est : Nat → Except RpcError (Option Nat)) :
    ∀ (ts : List Nat) (acc m : List (String × ℚ)),
      collectFees est ts acc = .ok m →
      m.map Prod.fst = keyCollect ts (acc.map Prod.fst) := by
  intro ts
  induction ts with
  | nil =>
    intro acc m h
    simp only [collectFees, Except.ok.injEq] at h
    subst h
    rfl
  | cons t rest ih =>
    intro acc m h
    simp only [collectFees] at h
    cases hr : get_fee_rate_blocking (est t) with
    | error e => rw [hr] at h; exact absurd h (by simp)
    | ok rate =>
      rw [hr] at h
      rw [ih _ _ h, insertSorted_map_fst]
      rfl

lemma get_fee_rate_blocking_nonneg (x : Except RpcError (Option Nat)) (q : ℚ)
    (h : get_fee_rate_blocking x = .ok q) : 0 ≤ q := by
  match x with
  | .error e => simp [get_fee_rate_blocking] at h
  | .ok (some s) =>
    simp only [get_fee_rate_blocking, Except.ok.injEq] at h
    subst h
    unfold amountToBtc
    positivity
  | .ok none =>
    simp only [get_fee_rate_blocking, Except.ok.injEq] at h
    subst h
    norm_num [FALLBACK_FEE_RATE]

lemma mem_insertSorted (k : String) (v : ℚ) (m : List (String × ℚ))
    (p : String × ℚ) (hp : p ∈ insertSorted k v m) : p = (k, v) ∨ p ∈ m := by
  induction m with
  | nil => simpa [insertSorted] using hp
  | cons q rest ih =>
    obtain ⟨k', v'⟩ := q
    simp only [insertSorted] at hp
    split at hp
    · rcases List.mem_cons.mp hp with h | h
      · exact Or.inl h
      · exact Or.inr h
    · split at hp
      · rcases List.mem_cons.mp hp with h | h
        · exact Or.inl h
        · exact Or.inr (List.mem_cons_of_mem _ h)
      · rcases List.mem_cons.mp hp with h | h
        · exact Or.inr (by rw [h]; exact List.mem_cons_self _ _)
        · rcases ih h with h' | h'
          · exact Or.inl h'
          · exact Or.inr (List.mem_cons_of_mem _ h')

lemma collectFees_nonneg (est : Nat → Except RpcError (Option Nat)) :
    ∀ (ts : List Nat) (acc m : List (String × ℚ)),
      (∀ p ∈ acc, 0 ≤ p.2) → collectFees est ts acc = .ok m →
      ∀ p ∈ m, 0 ≤ p.2 := by
  intro ts
  induction ts with
  | nil =>
    intro acc m hacc h
    simp only [collectFees, Except.ok.injEq] at h
    subst h
    exact hacc
  | cons t rest ih =>
    intro acc m hacc h
    simp only [collectFees] at h
    cases hr : get_fee_rate_blocking (est t) with
    | error e => rw [hr] at h; exact absurd h (by simp)
    | ok rate =>
      rw [hr] at h
      refine ih _ _ ?_ h
      intro p hp
      rcases mem_insertSorted _ _ _ _ hp with hpe | hpm
      · rw [hpe]
        exact get_fee_rate_blocking_nonneg _ _ hr
      · exact hacc p hpm

lemma collectFees_no_error (est : Nat → Except RpcError (Option Nat)) :
    ∀ (ts : List Nat) (acc m : List (String × ℚ)),
      collectFees est ts acc = .ok m →
      ∀ t ∈ ts, ∀ e, get_fee_rate_blocking (est t) ≠ .error e := by
  intro ts
  induction ts with
  | nil =>
    intro acc m _ t ht
    simp at ht
  | cons t0 rest ih =>
    intro acc m h t ht e
    simp only [collectFees] at h
    cases hr : get_fee_rate_blocking (est t0) with
    | error e0 => rw [hr] at h; exact absurd h (by simp)
    | ok rate =>
      rw [hr] at h
      rcases List.mem_cons.mp ht with rfl | htm
      · rw [hr]; simp
      · exact ih _ _ h t htm e

/-- The 28 target keys in the order the `BTreeMap<String, f64>` stores them:
lexicographic in the decimal strings, not numeric. -/
def feeKeysLex : List String :=
  ["1", "10", "1008", "11", "12", "13", "14", "144", "15", "16", "17", "18",
   "19", "2", "20", "21", "22", "23", "24", "25", "3", "4", "5", "504", "6",
   "7", "8", "9"]

lemma keyCollect_targets : keyCollect CONFIRMATION_TARGETS [] = feeKeysLex := by
  decide

lemma feeEstimatesMap_map_fst (est : Nat → Except RpcError (Option Nat))
    (m : List (String × ℚ)) (h : feeEstimatesMap est = .ok m) :
    m.map Prod.fst = feeKeysLex := by
  rw [collectFees_map_fst est CONFIRMATION_TARGETS [] m h]
  exact keyCollect_targets

/-- The oracle of a daemon that answers every `estimate_smart_fee` call
successfully but with no usable `fee_rate`. -/
def estAllMissing : Nat → Except RpcError (Option Nat) := fun _ => .ok none

/-- The oracle of a daemon whose every `estimate_smart_fee` call succeeds
with a `fee_rate` of 100 satoshis. -/
def estAll100 : Nat → Except RpcError (Option Nat) := fun _ => .ok (some 100)

/-- The oracle of a daemon that fails the `estimate_smart_fee` call for
target 5 and answers every other target with no usable `fee_rate`. -/
def estFailAt5 : Nat → Except RpcError (Option Nat) := fun t =>
  if t == 5 then .error (.other "connection reset") else .ok none

/-! ### Claim theorems -/

/-- C1: the claim states that only the not-found case yields 404 and every
other RPC failure yields 500.  Counterexample: at height 0 with an RPC
failure that is not the not-found case (a connection-level error), the
handler answers 404, not 500 — the source's `Ok(Err(e))` arm maps every RPC
error to 404. -/
theorem C1_counterexample :
    (get_block_by_height 0
      (.joined (.error (.other "connection refused")))).status = 404 ∧
    (404 : Nat) ≠ 500 :=
  ⟨rfl, by decide⟩

/-- C1 (amended): for `/api/block-height/{height}` with a parsed height, a
successful RPC call yields 200 with the hash's canonical string; ANY error
returned by the RPC call — not only the not-found case — yields 404 "Block
not found"; status 500 is produced exactly when the offloaded task fails to
complete. -/
theorem C1_block_by_height_error_mapping (height : Nat) (hash : BlockHash)
    (e : RpcError) (msg : String) :
    get_block_by_height height (.joined (.ok hash)) =
      ⟨200, .text hash.hex, none⟩ ∧
    get_block_by_height height (.joined (.error e)) =
      ⟨404, .text "Block not found", none⟩ ∧
    get_block_by_height height (.joinError msg) =
      ⟨500, .text "RPC error", none⟩ :=
  ⟨rfl, rfl, rfl⟩

/-- C2: the claim states every request, including ones handled by the
fallback, records exactly one counter increment.  Counterexample: a request
to an unmatched path is served by the fallback and records zero metric
observations, because `track_metrics` is installed with `route_layer`,
which does not wrap the fallback. -/
theorem C2_counterexample :
    (serveMainServer "GET" "/definitely/not/a/route"
      (fun _ => ⟨200, .text "", none⟩)).2.counterIncrements.length = 0 ∧
    (0 : Nat) ≠ 1 :=
  ⟨rfl, by decide⟩

/-- C2 (amended): a request that matches a registered route passes through
the metrics middleware exactly once — one counter increment and one
histogram observation, both labelled with the method, the matched route
template and the response status code — while a request matching no route
is served by the fallback with no metric recorded at all, because the
middleware is installed with `route_layer`. -/
theorem C2_metrics_once_on_matched_routes (method rawPath : String)
    (handler : String → Response) :
    (match matchRoute rawPath with
     | some tmpl =>
       (serveMainServer method rawPath handler).2 =
         ⟨[⟨method, tmpl, toString (handler tmpl).status⟩],
          [⟨method, tmpl, toString (handler tmpl).status⟩]⟩
     | none => (serveMainServer method rawPath handler).2 = ⟨[], []⟩) := by
  cases h : matchRoute rawPath with
  | some tmpl => simp [serveMainServer, h, track_metrics]
  | none => simp [serveMainServer, h]

/-- C3: the claim states that for a parsed hash only the unknown-hash case
yields 404 and any other RPC failure yields 500.  Counterexample: with a
well-formed 64-hex hash and an RPC failure that is not the unknown-hash
case, the handler answers 404, not 500. -/
theorem C3_counterexample :
    ((get_block_raw
      "0000000000000000000000000000000000000000000000000000000000000000"
      (fun _ => .joined (.error (.other "connection reset")))).1.status
      = 404) ∧
    (404 : Nat) ≠ 500 :=
  ⟨rfl, by decide⟩

/-- C3 (amended): for `/api/block/{hash}/raw` with a hash that parses, a
successful RPC call yields 200 with the hex string; ANY error returned by
the RPC call — not only the unknown-hash case — yields 404 "Block not
found"; 500 is produced exactly when the offloaded task fails to
complete. -/
theorem C3_block_raw_error_mapping (s : String) (bh : BlockHash)
    (hparse : BlockHash.fromStr s = some bh)
    (rpc : BlockHash → TaskResult (Except RpcError String)) :
    (match rpc bh with
     | .joined (.ok blockHex) =>
       (get_block_raw s rpc).1 = ⟨200, .text blockHex, none⟩
     | .joined (.error _) =>
       (get_block_raw s rpc).1 = ⟨404, .text "Block not found", none⟩
     | .joinError _ =>
       (get_block_raw s rpc).1 = ⟨500, .text "RPC error", none⟩) := by
  cases hr : rpc bh with
  | joined r =>
    cases r with
    | ok blockHex => simp [get_block_raw, hparse, hr]
    | error e => simp [get_block_raw, hparse, hr]
  | joinError msg => simp [get_block_raw, hparse, hr]

theorem C3_block_raw_error_mapping_witness :
    BlockHash.fromStr
      "1111111111111111111111111111111111111111111111111111111111111111" =
      some ⟨"1111111111111111111111111111111111111111111111111111111111111111"⟩ ∧
    (get_block_raw
      "1111111111111111111111111111111111111111111111111111111111111111"
      (fun _ => .joined (.error .notFound))).1 =
      ⟨404, .text "Block not found", none⟩ :=
  ⟨rfl,
   C3_block_raw_error_mapping
     "1111111111111111111111111111111111111111111111111111111111111111"
     ⟨"1111111111111111111111111111111111111111111111111111111111111111"⟩
     rfl (fun _ => .joined (.error .notFound))⟩

/-- C4: a hash path parameter that does not parse as a block identifier is
answered 400 "Invalid block hash", and no RPC request is issued (the second
component of `get_block_raw`, the RPC call made, is `none`). -/
theorem C4_invalid_hash_rejected_locally (s : String)
    (hparse : BlockHash.fromStr s = none)
    (rpc : BlockHash → TaskResult (Except RpcError String)) :
    get_block_raw s rpc = (⟨400, .text "Invalid block hash", none⟩, none) := by
  simp [get_block_raw, hparse]

theorem C4_invalid_hash_rejected_locally_witness :
    BlockHash.fromStr "zzz" = none ∧
    BlockHash.fromStr
      "111111111111111111111111111111111111111111111111111111111111111" =
      none ∧
    get_block_raw "zzz" (fun _ => .joined (.error .notFound)) =
      (⟨400, .text "Invalid block hash", none⟩, none) :=
  ⟨by decide, by decide,
   C4_invalid_hash_rejected_locally "zzz" (by decide)
     (fun _ => .joined (.error .notFound))⟩

/-- C5: a successful fee-estimates response is the JSON of the collected
map: it has exactly 28 entries, its keys are exactly the decimal strings of
the 28 confirmation targets (1–25, 144, 504, 1008), and every rate value is
non-negative. -/
theorem C5_fee_estimates_28_nonneg (est : Nat → Except RpcError (Option Nat))
    (m : List (String × ℚ)) (h : feeEstimatesMap est = .ok m) :
    get_fee_estimates est (.joined ()) = ⟨200, .json m, none⟩ ∧
    m.length = 28 ∧
    (m.map Prod.fst).Perm (CONFIRMATION_TARGETS.map fun t => toString t) ∧
    ∀ p ∈ m, 0 ≤ p.2 := by
  have hk := feeEstimatesMap_map_fst est m h
  refine ⟨?_, ?_, ?_, ?_⟩
  · simp [get_fee_estimates, h]
  · calc m.length = (m.map Prod.fst).length := by simp
    _ = feeKeysLex.length := by rw [hk]
    _ = 28 := rfl
  · rw [hk]
    decide
  · exact collectFees_nonneg est CONFIRMATION_TARGETS [] m (by simp) h

theorem C5_fee_estimates_28_nonneg_witness :
    feeEstimatesMap estAllMissing =
      .ok (feeKeysLex.map fun k => (k, FALLBACK_FEE_RATE)) ∧
    (get_fee_estimates estAllMissing (.joined ()) =
        ⟨200, .json (feeKeysLex.map fun k => (k, FALLBACK_FEE_RATE)), none⟩ ∧
      (feeKeysLex.map fun k => (k, FALLBACK_FEE_RATE)).length = 28 ∧
      ((feeKeysLex.map fun k => (k, FALLBACK_FEE_RATE)).map Prod.fst).Perm
        (CONFIRMATION_TARGETS.map fun t => toString t) ∧
      ∀ p ∈ feeKeysLex.map fun k => (k, FALLBACK_FEE_RATE), 0 ≤ p.2) :=
  ⟨rfl, C5_fee_estimates_28_nonneg estAllMissing
    (feeKeysLex.map fun k => (k, FALLBACK_FEE_RATE)) rfl⟩

/-- C6: if the `estimate_smart_fee` call for any confirmation target
returns an error, the whole fee-estimates response is status 500 with the
plain-text body "RPC error" — no entry for any target is returned. -/
theorem C6_first_failure_aborts (est : Nat → Except RpcError (Option Nat))
    (h : ∃ t ∈ CONFIRMATION_TARGETS, ∃ e,
      get_fee_rate_blocking (est t) = .error e) :
    get_fee_estimates est (.joined ()) = ⟨500, .text "RPC error", none⟩ := by
  obtain ⟨t, ht, e, he⟩ := h
  cases hm : feeEstimatesMap est with
  | ok m =>
    exact absurd he (collectFees_no_error est CONFIRMATION_TARGETS [] m hm t ht e)
  | error e0 => simp [get_fee_estimates, hm]

theorem C6_first_failure_aborts_witness :
    (∃ t ∈ CONFIRMATION_TARGETS, ∃ e,
      get_fee_rate_blocking (estFailAt5 t) = .error e) ∧
    get_fee_estimates estFailAt5 (.joined ()) =
      ⟨500, .text "RPC error", none⟩ :=
  ⟨⟨5, by decide, .other "connection reset", rfl⟩,
   C6_first_failure_aborts estFailAt5
     ⟨5, by decide, .other "connection reset", rfl⟩⟩

/-- C7: when the daemon's `estimate_smart_fee` call itself succeeds, the
adapter never returns an error — and when the reply carries no usable
`fee_rate` the adapter substitutes the fixed fallback constant
0.0001 BTC = 1/10000. -/
theorem C7_missing_estimate_fallback (feeRate : Option Nat) :
    get_fee_rate_blocking (.ok none) = .ok FALLBACK_FEE_RATE ∧
    FALLBACK_FEE_RATE = 1 / 10000 ∧
    ∃ q, get_fee_rate_blocking (.ok feeRate) = .ok q := by
  refine ⟨rfl, rfl, ?_⟩
  cases feeRate with
  | none => exact ⟨FALLBACK_FEE_RATE, rfl⟩
  | some s => exact ⟨amountToBtc s, rfl⟩

/-- C8: for `/api/blocks/tip/height`, success yields 200 with the height as
decimal text, and both failure channels — the RPC call returning an error
and the offloaded task failing to complete — yield identical responses:
status 500, body "RPC error". -/
theorem C8_tip_height_mapping (height : Nat) (e : RpcError) (msg : String) :
    get_tip_height (.joined (.ok height)) =
      ⟨200, .text (toString height), none⟩ ∧
    get_tip_height (.joined (.error e)) = ⟨500, .text "RPC error", none⟩ ∧
    get_tip_height (.joinError msg) = get_tip_height (.joined (.error e)) :=
  ⟨rfl, rfl, rfl⟩

/-- C9: a request whose path matches no registered route is answered by the
fallback: a 307 temporary redirect whose `Location` is the root listing
path `/`. -/
theorem C9_fallback_redirect (method rawPath : String)
    (handler : String → Response) (h : matchRoute rawPath = none) :
    (serveMainServer method rawPath handler).1 = fallback ∧
    fallback.status = 307 ∧ fallback.location = some "/" := by
  refine ⟨?_, rfl, rfl⟩
  simp [serveMainServer, h]

theorem C9_fallback_redirect_witness :
    matchRoute "/foo/bar" = none ∧
    ((serveMainServer "GET" "/foo/bar"
        (fun _ => ⟨200, .text "", none⟩)).1 = fallback ∧
      fallback.status = 307 ∧ fallback.location = some "/") :=
  ⟨by decide,
   C9_fallback_redirect "GET" "/foo/bar" (fun _ => ⟨200, .text "", none⟩)
     (by decide)⟩

/-- C10: the entries of a successful fee-estimates response are ordered by
the lexicographic order of the targets' decimal strings — "1008" precedes
"11" and "144" precedes "2" — and not by ascending numeric order of the
targets, because the `BTreeMap` is keyed by the decimal strings. -/
theorem C10_lexicographic_order (est : Nat → Except RpcError (Option Nat))
    (m : List (String × ℚ)) (h : feeEstimatesMap est = .ok m) :
    m.map Prod.fst = feeKeysLex ∧
    List.Pairwise (fun a b => strLt a b = true) (m.map Prod.fst) ∧
    (m.map Prod.fst).indexOf "1008" < (m.map Prod.fst).indexOf "11" ∧
    (m.map Prod.fst).indexOf "144" < (m.map Prod.fst).indexOf "2" ∧
    m.map Prod.fst ≠ CONFIRMATION_TARGETS.map (fun t => toString t) := by
  have hk := feeEstimatesMap_map_fst est m h
  rw [hk]
  exact ⟨rfl, by decide, by decide, by decide, by decide⟩

theorem C10_lexicographic_order_witness :
    feeEstimatesMap estAll100 =
      .ok (feeKeysLex.map fun k => (k, amountToBtc 100)) ∧
    ((feeKeysLex.map fun k => (k, amountToBtc 100)).map Prod.fst =
        feeKeysLex ∧
      List.Pairwise (fun a b => strLt a b = true)
        ((feeKeysLex.map fun k => (k, amountToBtc 100)).map Prod.fst) ∧
      ((feeKeysLex.map fun k => (k, amountToBtc 100)).map
          Prod.fst).indexOf "1008" <
        ((feeKeysLex.map fun k => (k, amountToBtc 100)).map
          Prod.fst).indexOf "11" ∧
      ((feeKeysLex.map fun k => (k, amountToBtc 100)).map
          Prod.fst).indexOf "144" <
        ((feeKeysLex.map fun k => (k, amountToBtc 100)).map
          Prod.fst).indexOf "2" ∧
      (feeKeysLex.map fun k => (k, amountToBtc 100)).map Prod.fst ≠
        CONFIRMATION_TARGETS.map (fun t => toString t)) :=
  ⟨rfl, C10_lexicographic_order estAll100
    (feeKeysLex.map fun k => (k, amountToBtc 100)) rfl⟩

end Minipool
